import Mathlib

/-!
Verification of the two command-line utilities of llm-data-lab:
`tools/basic_analysis.py` (statistics reporter) and `tools/visualization.py`
(chart renderer).  The in-memory table (a pandas DataFrame) is embedded as a
list of named, typed columns; numeric cells are idealised as rationals and
date-time cells as integers.  Each Python function used by the claims is
translated into a Lean definition below; calls into the pandas/matplotlib
libraries are modelled by their documented behaviour (noted at each point).
-/

namespace DataLab

/-! ## Data model: the in-memory table -/

/-- A single cell value: numeric (int/float idealised as `ℚ`), text, or
date-time (idealised as an integer timestamp). -/
inductive Cell where
  | num (q : ℚ)
  | str (s : String)
  | dt (d : ℤ)
deriving DecidableEq

/-- A column's data, with its inferred dtype: numeric, text/object, or
date-time.  (`select_dtypes(include=["number"])` picks `num` columns;
`select_dtypes(include=["object", "category"])` picks `str` columns.) -/
inductive ColData where
  | num (vals : List ℚ)
  | str (vals : List String)
  | dt (vals : List ℤ)
deriving DecidableEq

/-- A named column. -/
structure Col where
  name : String
  data : ColData
deriving DecidableEq

/-- The table: a list of named columns. -/
abbrev Frame := List Col

/-- Whether the column's dtype is numeric (`select_dtypes(["number"])` and
`pd.api.types.is_numeric_dtype` both pick exactly these in this model). -/
def ColData.isNum : ColData → Bool
  | .num _ => true
  | _ => false

/-- Whether the column's dtype is object/text. -/
def ColData.isStr : ColData → Bool
  | .str _ => true
  | _ => false

/-- The cells of a column, dtype-tagged. -/
def ColData.cells : ColData → List Cell
  | .num vs => vs.map Cell.num
  | .str vs => vs.map Cell.str
  | .dt vs => vs.map Cell.dt

/-- The numeric values of a column (empty for non-numeric columns). -/
def ColData.numVals : ColData → List ℚ
  | .num vs => vs
  | _ => []

/-- The column names of a table (`df.columns`). -/
def colNames (df : Frame) : List String := df.map Col.name

/-- Look a column up by name (`df[c]`): the first column so named. -/
def getCol : Frame → String → Option ColData
  | [], _ => none
  | col :: rest, c => if col.name = c then some col.data else getCol rest c

/-- `c in df.columns`. -/
def hasCol (df : Frame) (c : String) : Bool := (getCol df c).isSome

/-- `pd.api.types.is_numeric_dtype(df[c])`. -/
def isNumericCol (df : Frame) (c : String) : Bool :=
  match getCol df c with
  | some (.num _) => true
  | _ => false

/-- `df.select_dtypes(include=["number"])`, kept as (name, values) pairs. -/
def numericCols (df : Frame) : List (String × List ℚ) :=
  df.filterMap (fun c =>
    match c.data with
    | .num vs => some (c.name, vs)
    | _ => none)

/-- Replace the data of the column named `n` in place
(`df[n] = ...`); every other column, and the column order, is untouched. -/
def setCol (df : Frame) (n : String) (d : ColData) : Frame :=
  df.map (fun c => if c.name = n then ⟨c.name, d⟩ else c)

/-! ## Table loader (`load_data`, identical in both programs)

`load_data` first tests `os.path.exists`, then dispatches on
`Path(file_path).suffix.lower()`.  The filesystem test is a boolean input
of the model; the four pandas readers are abstract parse outcomes. -/

/-- The final path component (`Path(p).name`): the part after the last
slash, with empty components (trailing slashes) dropped. -/
def lastComponent (p : String) : String :=
  ((p.splitOn "/").filter (fun s => s != "")).getLastD ""

/-- Positions of the dots in a list of characters. -/
def dotIndexes (cs : List Char) : List ℕ :=
  (cs.enum.filter (fun q => q.2 == '.')).map Prod.fst

/-- `Path(p).suffix`: the extension of the final component — the substring
from its last dot, unless that dot is the first or the last character. -/
def pathSuffix (p : String) : String :=
  let cs := (lastComponent p).toList
  match (dotIndexes cs).getLast? with
  | some i => if 0 < i ∧ i + 1 < cs.length then String.mk (cs.drop i) else ""
  | none => ""

/-- What `load_data` decides to do with the path: fail, or hand the file to
one of the four format parsers, or fail naming the unsupported extension. -/
inductive LoadDispatch where
  | fileNotFound (path : String)
  | csv
  | excel
  | json
  | parquet
  | unsupported (ext : String)
deriving DecidableEq

/-- The error message `load_data` raises, when it raises one. -/
def loadErrMessage : LoadDispatch → Option String
  | .fileNotFound p => some ("ファイルが見つかりません: " ++ p)
  | .unsupported e => some ("サポートされていないファイル形式です: " ++ e)
  | _ => none

/-- `load_data` of `tools/basic_analysis.py` (lines 19–59): existence check
first, then extension dispatch, case-insensitively. -/
def load_data (pathExists : Bool) (p : String) : LoadDispatch :=
  if !pathExists then .fileNotFound p
  else
    let ext := (pathSuffix p).toLower
    if ext = ".csv" then .csv
    else if ext = ".xlsx" ∨ ext = ".xls" then .excel
    else if ext = ".json" then .json
    else if ext = ".parquet" then .parquet
    else .unsupported ext

/-- `load_data` of `tools/visualization.py` (lines 21–61): the same routine,
reimplemented verbatim in the second program. -/
def vis_load_data (pathExists : Bool) (p : String) : LoadDispatch :=
  if !pathExists then .fileNotFound p
  else
    let ext := (pathSuffix p).toLower
    if ext = ".csv" then .csv
    else if ext = ".xlsx" ∨ ext = ".xls" then .excel
    else if ext = ".json" then .json
    else if ext = ".parquet" then .parquet
    else .unsupported ext

/-! ## The CSV encoding fallback (`load_data`, `.csv` branch)

`pd.read_csv` is library code, so each attempt is an abstract outcome:
success, a decode failure (`UnicodeDecodeError`), or any other failure
(parser errors and the rest — the source's `except Exception` catches every
kind). -/

/-- What one `pd.read_csv` attempt does. -/
inductive ParseOutcome where
  | ok (table : Frame)
  | decodeErr (msg : String)
  | otherErr (msg : String)
deriving DecidableEq

/-- Whether the attempt succeeded. -/
def ParseOutcome.isOk : ParseOutcome → Bool
  | .ok _ => true
  | _ => false

/-- Whether the attempt failed with a decode (encoding) error. -/
def ParseOutcome.isDecode : ParseOutcome → Bool
  | .decodeErr _ => true
  | _ => false

/-- The attempt's outcome as the value the call returns or raises. -/
def ParseOutcome.toResult : ParseOutcome → Except String Frame
  | .ok t => .ok t
  | .decodeErr m => .error m
  | .otherErr m => .error m

/-- The two attempts a `.csv` load can make: `pd.read_csv(file_path)` and
`pd.read_csv(file_path, encoding="shift-jis")`. -/
structure CsvEnv where
  utf8 : ParseOutcome
  shiftJis : ParseOutcome
deriving DecidableEq

/-- The observable run of the `.csv` branch: whether the diagnostic was
printed, whether the Shift-JIS retry ran, and the final result. -/
structure CsvRun where
  diagPrinted : Bool
  retried : Bool
  result : Except String Frame

/-- The `.csv` branch of `load_data` (lines 37–44 of both programs):
`try: return pd.read_csv(p)` and on ANY exception print two diagnostic
lines and retry once with `encoding="shift-jis"`; the retry's own failure
propagates. -/
def readCsvFallback (env : CsvEnv) : CsvRun :=
  match env.utf8 with
  | .ok t => ⟨false, false, .ok t⟩
  | .decodeErr _ => ⟨true, true, env.shiftJis.toResult⟩
  | .otherErr _ => ⟨true, true, env.shiftJis.toResult⟩

/-- Claim C4 as stated: the retry happens exactly on a decode failure of
the first attempt. -/
def retryExactlyOnDecode : Prop :=
  ∀ env : CsvEnv, (readCsvFallback env).retried = env.utf8.isDecode

/-! ## Program 1 command line (`main` of `tools/basic_analysis.py`)

The argument parser registers the positional `file_path` and the options
`--output` (short `-o`) and `--head` (short `-n`) — nothing else
(lines 186–189). -/

/-- A parsed program-1 command line. -/
structure Args1 where
  file_path : String
  output : Option String
  head : ℤ
deriving DecidableEq

/-- Every option string program 1's parser accepts. -/
def program1OptionStrings : List String := ["--output", "-o", "--head", "-n"]

/-- The default of `analyze_correlations`'s `threshold` parameter. -/
def analyzeCorrDefaultThreshold : ℚ := 7 / 10

/-- The threshold `main` passes to the console correlation analysis: the
call is `analyze_correlations(df)` (line 208), so the default is used in
every run, whatever the parsed arguments. -/
def mainConsoleThreshold (_ : Args1) : ℚ := analyzeCorrDefaultThreshold

/-- The threshold hard-coded in `save_analysis_report`'s correlation loop
(line 175: `abs(...) >= 0.7`). -/
def savedReportThreshold : ℚ := 7 / 10

/-- Claim C1's configurability premise: some pair of accepted command lines
yields two different console thresholds. -/
def consoleThresholdConfigurable : Prop :=
  ∃ a b : Args1, mainConsoleThreshold a ≠ mainConsoleThreshold b

/-! ## Pearson correlation (`numeric_df.corr()`)

pandas computes the sample Pearson coefficient
`r = Σ(x-x̄)(y-ȳ) / √(Σ(x-x̄)² · Σ(y-ȳ)²)` for each pair of numeric
columns (the `(n-1)` factors of covariance and standard deviation cancel).
`r` needs a real square root, so the coefficient itself lives in `ℝ`; the
threshold test `abs(r) >= t` is also given an equivalent executable form,
proved equivalent below. -/

/-- The arithmetic mean of a list of rationals. -/
def listMean (xs : List ℚ) : ℚ := xs.sum / xs.length

/-- Deviations from the mean. -/
def devs (xs : List ℚ) : List ℚ := xs.map (fun a => a - listMean xs)

/-- `Σ (x-x̄)(y-ȳ)`. -/
def crossDev (xs ys : List ℚ) : ℚ :=
  (List.zipWith (fun a b => a * b) (devs xs) (devs ys)).sum

/-- `Σ (x-x̄)²`. -/
def sqDev (xs : List ℚ) : ℚ := crossDev xs xs

/-- The Pearson correlation coefficient of two columns, as pandas computes
it.  (When a column is constant its standard deviation is zero; pandas
yields NaN there and every `NaN >= t` test is false — here the Lean
convention `a / 0 = 0` makes the value `0`, and the threshold tests used by
the programs all have `t > 0`, so the two conventions agree on every test
the code performs.) -/
noncomputable def pearson (xs ys : List ℚ) : ℝ :=
  (crossDev xs ys : ℝ) / (Real.sqrt (sqDev xs) * Real.sqrt (sqDev ys))

/-- Executable form of `abs(corr_matrix.iloc[i, j]) >= threshold` for a
positive threshold: both variances positive and
`t² · Σdx² · Σdy² ≤ (Σ dx·dy)²`. -/
def pearsonPass (xs ys : List ℚ) (t : ℚ) : Bool :=
  decide (0 < sqDev xs ∧ 0 < sqDev ys ∧ t ^ 2 * (sqDev xs * sqDev ys) ≤ crossDev xs ys ^ 2)

/-- The index pairs `(i, j)` the two nested loops of the correlation report
visit: `for i in range(n): for j in range(i):` — the strict lower triangle. -/
def lowerTriangle (n : ℕ) : List (ℕ × ℕ) :=
  (List.range n).flatMap (fun i => (List.range i).map (fun j => (i, j)))

/-- The `(col1, col2)` name pairs the correlation loop prints, in print
order (column `i`'s name first, exactly as the f-string writes them). -/
def corrPairs (cols : List (String × List ℚ)) (t : ℚ) : List (String × String) :=
  (lowerTriangle cols.length).filterMap (fun ij =>
    if pearsonPass (cols.getD ij.1 ("", [])).2 (cols.getD ij.2 ("", [])).2 t
    then some ((cols.getD ij.1 ("", [])).1, (cols.getD ij.2 ("", [])).1) else none)

/-- What `analyze_correlations` prints: either the skip message or the
filtered pair list. -/
inductive CorrOutput where
  | skipped
  | printed (pairs : List (String × String))
deriving DecidableEq

/-- `analyze_correlations` of `tools/basic_analysis.py` (lines 101–127):
select the numeric columns, skip when fewer than two, else print the
lower-triangle pairs whose coefficient passes the threshold. -/
def analyze_correlations (df : Frame) (t : ℚ) : CorrOutput :=
  let nc := numericCols df
  if nc.length < 2 then .skipped else .printed (corrPairs nc t)

/-- The console correlation call of `main` (line 208): `analyze_correlations(df)`,
so the parameter default is used. -/
def mainConsoleCorr (df : Frame) : CorrOutput :=
  analyze_correlations df analyzeCorrDefaultThreshold

/-- The correlation section `save_analysis_report` writes (lines 169–179):
present only when at least two numeric columns exist, and filtered with the
hard-coded `0.7`. -/
def saveReportCorrSection (df : Frame) : Option (List (String × String)) :=
  let nc := numericCols df
  if 2 ≤ nc.length then some (corrPairs nc (7 / 10)) else none

/-- Python's `f"{v:.4f}"` applied to the coefficient: the value scaled by
`10⁴` and rounded to the nearest integer, ties to even. -/
noncomputable def fmt4 (r : ℝ) : ℤ :=
  let y := r * 10000
  if Int.fract y = 1 / 2 then 2 * round (y / 2) else round y

/-- No unordered pair occurs twice in a list of printed name pairs. -/
def noDupUnordered (ps : List (String × String)) : Prop :=
  List.Pairwise (fun p q => p ≠ q ∧ p ≠ (q.2, q.1)) ps

/-! ## Duplicate rows (`check_duplicates`)

`df.duplicated()` (default `keep="first"`) marks a row exactly when an
earlier row equals it across all columns; rows are compared whole, so the
model works over any type with decidable equality. -/

/-- The flags `df.duplicated()` produces, scanning rows left to right with
the set of rows already seen. -/
def duplicatedFlagsAux {α : Type} [DecidableEq α] (seen : List α) : List α → List Bool
  | [] => []
  | r :: rs => decide (r ∈ seen) :: duplicatedFlagsAux (r :: seen) rs

/-- `df.duplicated()`. -/
def duplicatedFlags {α : Type} [DecidableEq α] (rows : List α) : List Bool :=
  duplicatedFlagsAux [] rows

/-- `df.duplicated().sum()` — the reported duplicate-row count. -/
def dupCount {α : Type} [DecidableEq α] (rows : List α) : ℕ :=
  (duplicatedFlags rows).count true

/-- `df[df.duplicated(keep="first")].head()` — the example rows printed
when the count is positive (`head`'s default is five). -/
def dupExamples {α : Type} [DecidableEq α] (rows : List α) : List α :=
  (((rows.zip (duplicatedFlags rows)).filter (fun p => p.2)).map Prod.fst).take 5

/-- Helper for the count proof: how many elements are NOT equal to an
earlier one (first occurrences), scanning with the seen accumulator. -/
def newDistinct {α : Type} [DecidableEq α] (seen : List α) : List α → ℕ
  | [] => 0
  | r :: rs => (if r ∈ seen then 0 else 1) + newDistinct (r :: seen) rs

/-! ## Value counts and the count/bar chart (`plot_count`) -/

/-- `df[column].value_counts()`: each distinct value with its frequency,
sorted by frequency descending (pandas leaves the order of tied counts
unspecified; the model uses a merge sort over the distinct values). -/
def value_counts {α : Type} [DecidableEq α] (l : List α) : List (α × ℕ) :=
  ((l.dedup).map (fun a => (a, l.count a))).mergeSort (fun p q => decide (q.2 ≤ p.2))

/-- What the count chart displays: whether the truncation notice was
printed, and the (value, frequency) bars shown. -/
structure CountView (α : Type) where
  truncated : Bool
  shown : List (α × ℕ)
deriving DecidableEq

/-- The truncation logic of `plot_count` (lines 292–298): more than 10
distinct values → print the notice and keep `value_counts.head(10)`. -/
def countChart {α : Type} [DecidableEq α] (l : List α) : CountView α :=
  if 10 < (value_counts l).length then ⟨true, (value_counts l).take 10⟩
  else ⟨false, value_counts l⟩

/-! ## Chart functions of `tools/visualization.py`

Each plot function validates its named columns, then (and only then) makes
its matplotlib calls.  The matplotlib/seaborn calls are modelled as an
effect trace in program order: figure creation, drawing, saving or showing,
console messages.  A `ValueError` raise is the `some`-error component; the
trace holds exactly the effects performed before the function returned or
raised. -/

/-- A console message a chart function can print. -/
inductive MsgKind where
  | truncNotice (column : String)
  | savedFile (path : String)
  | skipFewNumeric
deriving DecidableEq

/-- One observable action of a chart function. -/
inductive Effect where
  | figure
  | draw
  | save (path : String)
  | display
  | message (k : MsgKind)
deriving DecidableEq

/-- A validation error a chart function raises. -/
inductive PlotErr where
  | missingCol (c : String)
  | notNumeric (c : String)
  | dateParse (c : String)
deriving DecidableEq

/-- The closing effects every chart shares: save at the given path and
print the confirmation, or show interactively. -/
def finishEffects (out : Option String) : List Effect :=
  match out with
  | some p => [.save p, .message (.savedFile p)]
  | none => [.display]

/-- `plot_histogram` (lines 77–105): column exists, column numeric, then
figure → draw → save/show. -/
def plot_histogram (df : Frame) (column : String) (_bins : ℕ) (out : Option String) :
    List Effect × Option PlotErr :=
  if !hasCol df column then ([], some (.missingCol column))
  else if !isNumericCol df column then ([], some (.notNumeric column))
  else ([.figure, .draw] ++ finishEffects out, none)

/-- `plot_boxplot` (lines 108–143): column exists, column numeric, the
grouping column (when given) exists, then draw. -/
def plot_boxplot (df : Frame) (column : String) (grpBy : Option String) (out : Option String) :
    List Effect × Option PlotErr :=
  if !hasCol df column then ([], some (.missingCol column))
  else if !isNumericCol df column then ([], some (.notNumeric column))
  else
    match grpBy with
    | some b =>
        if !hasCol df b then ([], some (.missingCol b))
        else ([.figure, .draw] ++ finishEffects out, none)
    | none => ([.figure, .draw] ++ finishEffects out, none)

/-- `plot_scatter` (lines 146–189): x exists, y exists, x numeric, y
numeric, hue (when given) exists, then draw. -/
def plot_scatter (df : Frame) (x y : String) (hue : Option String) (out : Option String) :
    List Effect × Option PlotErr :=
  if !hasCol df x then ([], some (.missingCol x))
  else if !hasCol df y then ([], some (.missingCol y))
  else if !isNumericCol df x then ([], some (.notNumeric x))
  else if !isNumericCol df y then ([], some (.notNumeric y))
  else
    match hue with
    | some h =>
        if !hasCol df h then ([], some (.missingCol h))
        else ([.figure, .draw] ++ finishEffects out, none)
    | none => ([.figure, .draw] ++ finishEffects out, none)

/-- `plot_correlation_heatmap` (lines 192–227): with fewer than two numeric
columns print the skip message and return; else draw. -/
def plot_correlation_heatmap (df : Frame) (out : Option String) :
    List Effect × Option PlotErr :=
  if (numericCols df).length < 2 then ([.message .skipFewNumeric], none)
  else ([.figure, .draw] ++ finishEffects out, none)

/-- The per-column check loop of `plot_pairplot` (lines 250–254): the first
missing or non-numeric column raises. -/
def firstBadPairCol (df : Frame) : List String → Option PlotErr
  | [] => none
  | c :: rest =>
      if !hasCol df c then some (.missingCol c)
      else if !isNumericCol df c then some (.notNumeric c)
      else firstBadPairCol df rest

/-- `plot_pairplot` (lines 230–276): explicit columns all exist and are
numeric (or default to the numeric columns, skipping under two), the hue
column (when given) exists, then draw (seaborn creates its own figure). -/
def plot_pairplot (df : Frame) (columns : Option (List String)) (hue : Option String)
    (out : Option String) : List Effect × Option PlotErr :=
  let afterCols : Option PlotErr → List Effect × Option PlotErr := fun bad =>
    match bad with
    | some e => ([], some e)
    | none =>
        match hue with
        | some h =>
            if !hasCol df h then ([], some (.missingCol h))
            else ([.draw] ++ finishEffects out, none)
        | none => ([.draw] ++ finishEffects out, none)
  match columns with
  | none =>
      if (numericCols df).length < 2 then ([.message .skipFewNumeric], none)
      else afterCols none
  | some cs => afterCols (firstBadPairCol df cs)

/-- `plot_count` (lines 279–315): column exists, figure, value counts with
the 10-bar truncation notice, draw. -/
def plot_count (df : Frame) (column : String) (out : Option String) :
    List Effect × Option PlotErr :=
  match getCol df column with
  | none => ([], some (.missingCol column))
  | some d =>
      ([.figure] ++
        (if (countChart d.cells).truncated then [.message (.truncNotice column)] else [])
        ++ [.draw] ++ finishEffects out, none)

/-! ## Time series (`plot_time_series`)

`pd.to_datetime` is library code: its behaviour on one cell is an abstract
partial conversion, one function per source dtype.  A frequency code such
as `'W'` stands for a bucketing of timestamps into bins; it is modelled as
the function taking a timestamp to its bin label (`'W'` with day-number
timestamps is `fun d => (d + off) / 7`-style).  `resample(freq).mean()`
yields one row per bin between the first and the last occupied bin; empty
bins hold NaN, modelled as `none`. -/

/-- The abstract `pd.to_datetime` cell conversions. -/
structure DTParse where
  ofStr : String → Option ℤ
  ofNum : ℚ → Option ℤ

/-- All-or-nothing traversal: `none` as soon as one element fails. -/
def traverseOpt {α β : Type} (f : α → Option β) : List α → Option (List β)
  | [] => some []
  | a :: as =>
      match f a, traverseOpt f as with
      | some b, some bs => some (b :: bs)
      | _, _ => none

/-- `pd.to_datetime(df[date_column])`: convert every cell or fail; a
date-time column is returned unchanged. -/
def parseDates (P : DTParse) : ColData → Option (List ℤ)
  | .num vs => traverseOpt P.ofNum vs
  | .str vs => traverseOpt P.ofStr vs
  | .dt vs => some vs

/-- The mean of a bucket's values, `none` for an empty bucket (NaN). -/
def meanOpt (vs : List ℚ) : Option ℚ :=
  if vs.isEmpty then none else some (vs.sum / vs.length)

/-- `df.sort_values(by=date_column)` restricted to the two plotted columns:
the (date, value) rows in ascending date order. -/
def sortByDate (rows : List (ℤ × ℚ)) : List (ℤ × ℚ) :=
  rows.mergeSort (fun p q => decide (p.1 ≤ q.1))

/-- `resample(freq)[value].mean()`: one row per bin from the smallest
occupied bin to the largest, holding the mean of the bin's values. -/
def resample (bucket : ℤ → ℤ) (rows : List (ℤ × ℚ)) : List (ℤ × Option ℚ) :=
  match (rows.map (fun r => bucket r.1)).min?, (rows.map (fun r => bucket r.1)).max? with
  | some a, some b =>
      (List.range (b - a + 1).toNat).map (fun k : ℕ =>
        (a + (k : ℤ),
          meanOpt ((rows.filter (fun r => bucket r.1 == a + (k : ℤ))).map Prod.snd)))
  | _, _ => []

/-- Everything observable about one `plot_time_series` call: the effect
trace, the raised error, the plotted points, and the table as the CALLER
sees it afterwards (`df[date_column] = ...` mutates the shared frame;
`df = df.sort_values(...)` only rebinds the local name). -/
structure TSResult where
  effects : List Effect
  err : Option PlotErr
  points : List (ℤ × Option ℚ)
  frame : Frame

/-- `plot_time_series` (lines 318–373): validate, convert the date column
in place, sort a local copy, optionally resample, draw. -/
def plot_time_series (P : DTParse) (df : Frame) (dateCol valueCol : String)
    (freq : Option (ℤ → ℤ)) (out : Option String) : TSResult :=
  if !hasCol df dateCol then ⟨[], some (.missingCol dateCol), [], df⟩
  else if !hasCol df valueCol then ⟨[], some (.missingCol valueCol), [], df⟩
  else if !isNumericCol df valueCol then ⟨[], some (.notNumeric valueCol), [], df⟩
  else
    match parseDates P ((getCol df dateCol).getD (.num [])) with
    | none => ⟨[], some (.dateParse dateCol), [], df⟩
    | some dates =>
        let df2 := setCol df dateCol (.dt dates)
        let values := ((getCol df valueCol).getD (.num [])).numVals
        let rows := sortByDate (dates.zip values)
        let pts :=
          match freq with
          | some bucket => resample bucket rows
          | none => rows.map (fun r => (r.1, some r.2))
        ⟨[.figure, .draw] ++ finishEffects out, none, pts, df2⟩

/-! ## The chart dispatcher and the operations of both programs -/

/-- A chart request as `main` of program 2 dispatches it. -/
inductive ChartCmd where
  | hist (column : String) (bins : ℕ)
  | box (column : String) (grpBy : Option String)
  | scatter (x y : String) (hue : Option String)
  | corr
  | pair (columns : Option (List String)) (hue : Option String)
  | count (column : String)
  | time (dateCol column : String) (freq : Option (ℤ → ℤ))

/-- Run one chart function, keeping its effect trace and error. -/
def runChart (P : DTParse) (df : Frame) (cmd : ChartCmd) (out : Option String) :
    List Effect × Option PlotErr :=
  match cmd with
  | .hist c b => plot_histogram df c b out
  | .box c g => plot_boxplot df c g out
  | .scatter x y h => plot_scatter df x y h out
  | .corr => plot_correlation_heatmap df out
  | .pair cs h => plot_pairplot df cs h out
  | .count c => plot_count df c out
  | .time dc vc f => ((plot_time_series P df dc vc f out).effects,
      (plot_time_series P df dc vc f out).err)

/-- Every operation either program applies to its loaded table. -/
inductive Operation where
  | headRows (n : ℤ)
  | basicStats
  | checkDup
  | analyzeCorr (t : ℚ)
  | saveReport (path : String)
  | chart (cmd : ChartCmd) (out : Option String)

/-- Whether the operation is the time-series plot. -/
def Operation.isTimeSeries : Operation → Bool
  | .chart (.time _ _ _) _ => true
  | _ => false

/-- The table as the caller sees it after the operation.  Only
`plot_time_series` ever assigns into the shared frame
(`df[date_column] = pd.to_datetime(...)`, line 341); every other function
of both programs only reads `df`, so the frame it leaves behind is the
frame it was given. -/
def tableAfter (P : DTParse) (op : Operation) (df : Frame) : Frame :=
  match op with
  | .chart (.time dc vc f) out => (plot_time_series P df dc vc f out).frame
  | _ => df

/-! ## `df.describe()` and the numeric-summary section (program 1)

Modelled from the pandas `describe` contract the code relies on: with at
least one numeric column, `describe()` summarises exactly the numeric
columns (count, mean, std, quartiles, …); with none, it falls back to
summarising ALL columns with the object statistics (count, unique, top,
freq).  The model keeps the statistics the claims mention. -/

/-- One column's `describe()` output. -/
inductive ColSummary where
  | numericStats (count : ℕ) (mean mn mx : ℚ)
  | objectStats (count unique : ℕ) (top : Option Cell) (freq : ℕ)
deriving DecidableEq

/-- Whether a summary is the numeric kind. -/
def ColSummary.isNumericStats : ColSummary → Bool
  | .numericStats _ _ _ _ => true
  | _ => false

/-- The most frequent value of a column (`describe`'s `top`). -/
def listMode {α : Type} [DecidableEq α] (l : List α) : Option α :=
  ((value_counts l).head?).map Prod.fst

/-- `describe()` of one numeric column (the statistics the claims use). -/
def describeNumeric (vs : List ℚ) : ColSummary :=
  .numericStats vs.length (listMean vs) ((vs.min?).getD 0) ((vs.max?).getD 0)

/-- `describe()` of one non-numeric column: count, unique, top, freq. -/
def describeObject (cs : List Cell) : ColSummary :=
  .objectStats cs.length cs.dedup.length (listMode cs)
    (((listMode cs).map (fun a => cs.count a)).getD 0)

/-- `df.describe()`: numeric columns when any exist, else all columns with
object statistics. -/
def describe (df : Frame) : List (String × ColSummary) :=
  let nums := df.filter (fun c => c.data.isNum)
  if nums.isEmpty then df.map (fun c => (c.name, describeObject c.data.cells))
  else nums.map (fun c => (c.name, describeNumeric c.data.numVals))

/-- The section `basic_statistics` prints under the numeric-summary heading
(line 79: `print(df.describe())`). -/
def consoleNumericSummarySection (df : Frame) : List (String × ColSummary) := describe df

/-- The section `save_analysis_report` writes under the same heading
(line 156: `f.write(str(df.describe()))`). -/
def reportNumericSummarySection (df : Frame) : List (String × ColSummary) := describe df

/-! ## Claim statements over the embedding, and concrete instances -/

/-- What claim C2 asserts of `analyze_correlations` on a table and a
threshold: skip under two numeric columns; otherwise print exactly the
strict-lower-triangle pairs whose Pearson coefficient has absolute value at
least the threshold, each displayed value being the coefficient rounded at
the fourth decimal (`fmt4`, within half a unit of `10⁴·r`), with no column
paired against itself and no unordered pair printed twice. -/
def corrSpecStatement (df : Frame) (t : ℚ) : Prop :=
  ((numericCols df).length < 2 → analyze_correlations df t = .skipped) ∧
  (2 ≤ (numericCols df).length →
    analyze_correlations df t = .printed (corrPairs (numericCols df) t) ∧
    (∀ a b : String, (a, b) ∈ corrPairs (numericCols df) t ↔
      ∃ i j : ℕ, j < i ∧ i < (numericCols df).length ∧
        a = ((numericCols df).getD i ("", [])).1 ∧
        b = ((numericCols df).getD j ("", [])).1 ∧
        (t : ℝ) ≤ |pearson ((numericCols df).getD i ("", [])).2
          ((numericCols df).getD j ("", [])).2| ∧
        |(fmt4 (pearson ((numericCols df).getD i ("", [])).2
            ((numericCols df).getD j ("", [])).2) : ℝ) -
          pearson ((numericCols df).getD i ("", [])).2
            ((numericCols df).getD j ("", [])).2 * 10000| ≤ 1 / 2) ∧
    (∀ p ∈ corrPairs (numericCols df) t, p.1 ≠ p.2) ∧
    noDupUnordered (corrPairs (numericCols df) t))

/-- What claim C6 asserts of `plot_time_series` on a table whose date
column holds the raw strings `ds` and whose value column holds `vs`: a
date-parse failure is a terminal error; on success without a frequency the
plotted rows are the (date, value) pairs sorted ascending by date; with a
frequency the plotted points are one per bucket in ascending bucket order,
each holding the mean of its bucket's values, every occupied bucket getting
a (non-empty) point. -/
def tsSpecStatement (P : DTParse) (df : Frame) (dateCol valueCol : String)
    (ds : List String) (vs : List ℚ) : Prop :=
  (∀ freq out, traverseOpt P.ofStr ds = none →
      (plot_time_series P df dateCol valueCol freq out).err = some (.dateParse dateCol) ∧
      (plot_time_series P df dateCol valueCol freq out).points = [] ∧
      (plot_time_series P df dateCol valueCol freq out).effects = []) ∧
  (∀ dates out, traverseOpt P.ofStr ds = some dates →
      ((plot_time_series P df dateCol valueCol none out).err = none ∧
        (plot_time_series P df dateCol valueCol none out).points =
          (sortByDate (dates.zip vs)).map (fun q => (q.1, some q.2)) ∧
        List.Sorted (fun a b => a ≤ b) ((sortByDate (dates.zip vs)).map Prod.fst) ∧
        (sortByDate (dates.zip vs)).Perm (dates.zip vs)) ∧
      (∀ bucket,
        (plot_time_series P df dateCol valueCol (some bucket) out).err = none ∧
        (plot_time_series P df dateCol valueCol (some bucket) out).points =
          resample bucket (sortByDate (dates.zip vs)) ∧
        List.Pairwise (fun a b => a < b)
          (((plot_time_series P df dateCol valueCol (some bucket) out).points).map Prod.fst) ∧
        (∀ pt ∈ (plot_time_series P df dateCol valueCol (some bucket) out).points,
          pt.2 = meanOpt (((dates.zip vs).filter (fun q => bucket q.1 == pt.1)).map Prod.snd)) ∧
        (∀ q ∈ dates.zip vs,
          ∃ pt ∈ (plot_time_series P df dateCol valueCol (some bucket) out).points,
            pt.1 = bucket q.1 ∧ pt.2 ≠ none)))

/-- A concrete table for the correlation claim: two perfectly correlated
numeric columns and one text column. -/
def c2Frame : Frame :=
  [⟨"x", .num [1, 2, 3]⟩, ⟨"y", .num [2, 4, 6]⟩, ⟨"label", .str ["a", "b", "c"]⟩]

/-- A concrete all-categorical table for the describe claim. -/
def c10Frame : Frame := [⟨"cat", .str ["a", "b", "a"]⟩]

/-- A concrete cell conversion for the time-series claims. -/
def tsToyParse : DTParse where
  ofStr := fun s =>
    if s = "d0" then some 0
    else if s = "d1" then some 1
    else if s = "d7" then some 7
    else none
  ofNum := fun _ => none

/-- A concrete table for the time-series claim: three daily rows spanning
two weeks. -/
def tsToyFrame : Frame :=
  [⟨"date", .str ["d0", "d1", "d7"]⟩, ⟨"value", .num [1, 2, 3]⟩]

/-- A concrete cell conversion for the mutation claim. -/
def c9Parse : DTParse where
  ofStr := fun s =>
    if s = "2024-01-03" then some 3
    else if s = "2024-01-01" then some 1
    else if s = "2024-01-02" then some 2
    else none
  ofNum := fun _ => none

/-- A concrete table whose date strings are out of order. -/
def c9Frame : Frame :=
  [⟨"date", .str ["2024-01-03", "2024-01-01", "2024-01-02"]⟩,
   ⟨"value", .num [10, 20, 30]⟩]

/-- The table `plot_time_series` actually leaves behind at `c9Frame`: the
date column converted in place, rows in their ORIGINAL order. -/
def c9ParsedFrame : Frame :=
  [⟨"date", .dt [3, 1, 2]⟩, ⟨"value", .num [10, 20, 30]⟩]

/-- The table claim C9 predicts at `c9Frame`: date column converted AND
rows sorted ascending by date. -/
def c9SortedFrame : Frame :=
  [⟨"date", .dt [1, 2, 3]⟩, ⟨"value", .num [20, 30, 10]⟩]

/-! ## Helper lemmas -/

theorem getCol_of_hasCol {df : Frame} {c : String} (h : hasCol df c = true) :
    ∃ d, getCol df c = some d := by
  unfold hasCol at h
  cases hg : getCol df c with
  | none => rw [hg] at h; simp [Option.isSome] at h
  | some d => exact ⟨d, rfl⟩

theorem isNumericCol_num {df : Frame} {c : String} (h : isNumericCol df c = true) :
    ∃ vs, getCol df c = some (.num vs) := by
  unfold isNumericCol at h
  cases hg : getCol df c with
  | none => rw [hg] at h; simp at h
  | some d =>
      cases d with
      | num vs => exact ⟨vs, rfl⟩
      | str vs => rw [hg] at h; simp at h
      | dt vs => rw [hg] at h; simp at h

/-! ## Claim C1 -/

/-- C1 (counterexample): the console correlation threshold is NOT
configurable from the command line — `main` registers no threshold option
and always calls `analyze_correlations` with its default, so no two
accepted command lines yield different console thresholds. -/
theorem consoleThreshold_not_configurable : ¬ consoleThresholdConfigurable := by
  rintro ⟨a, b, h⟩
  exact h rfl

/-- C1 (amended): in every run of program 1 the console correlation
threshold is the fixed default 0.7 and the saved report's threshold is an
independently hard-coded 0.7; the parser accepts no `--threshold` option,
and when at least two numeric columns exist the console output and the
report section list the same pairs, both filtered at 0.7. -/
theorem thresholds_both_fixed :
    (∀ a : Args1, mainConsoleThreshold a = 7 / 10) ∧
    savedReportThreshold = 7 / 10 ∧
    "--threshold" ∉ program1OptionStrings ∧
    (∀ df : Frame, mainConsoleCorr df = analyze_correlations df (7 / 10)) ∧
    (∀ df : Frame, 2 ≤ (numericCols df).length →
      mainConsoleCorr df = .printed (corrPairs (numericCols df) (7 / 10)) ∧
      saveReportCorrSection df = some (corrPairs (numericCols df) (7 / 10))) := by
  refine ⟨fun _ => rfl, rfl, by decide, fun _ => rfl, fun df h => ⟨?_, ?_⟩⟩
  · show analyze_correlations df analyzeCorrDefaultThreshold = _
    unfold analyze_correlations analyzeCorrDefaultThreshold
    rw [if_neg (Nat.not_lt.mpr h)]
  · unfold saveReportCorrSection
    rw [if_pos h]

/-! ## Claim C4 -/

/-- C4 (counterexample): the `.csv` branch catches EVERY exception of the
first attempt, so a first attempt that fails with a non-decode error (for
example a parser error) also triggers the Shift-JIS retry, refuting "the
retry happens exactly on a decode failure". -/
theorem csvRetry_not_only_on_decode : ¬ retryExactlyOnDecode := by
  intro h
  have hc := h ⟨.otherErr "tokenizing error", .ok []⟩
  simp [readCsvFallback, ParseOutcome.isDecode] at hc

/-- C4 (amended): the loader retries once with Shift-JIS on ANY failure of
the first attempt (decode failures included), printing the diagnostic
exactly when it retries; a successful first attempt returns at once; the
failure surfaced to the user is the retry's and exists only when both
attempts fail; in particular a CSV readable only as Shift-JIS loads. -/
theorem readCsvFallback_spec (env : CsvEnv) :
    ((readCsvFallback env).retried = !env.utf8.isOk) ∧
    ((readCsvFallback env).diagPrinted = (readCsvFallback env).retried) ∧
    (∀ t, env.utf8 = .ok t → readCsvFallback env = ⟨false, false, .ok t⟩) ∧
    (env.utf8.isOk = false → (readCsvFallback env).result = env.shiftJis.toResult) ∧
    (∀ t, env.utf8.isOk = false → env.shiftJis = .ok t →
        (readCsvFallback env).result = .ok t) ∧
    ((∃ m, (readCsvFallback env).result = .error m) ↔
        env.utf8.isOk = false ∧ env.shiftJis.isOk = false) := by
  obtain ⟨u, s⟩ := env
  cases u <;> cases s <;>
    simp [readCsvFallback, ParseOutcome.isOk, ParseOutcome.toResult]

/-! ## Claim C3 -/

/-- C3: for every path, a missing file fails with file-not-found before any
parse; an existing file is dispatched on the lower-cased extension
(`.csv` delimited text, `.xlsx`/`.xls` spreadsheet, `.json` JSON records,
`.parquet` columnar); any other extension fails with an unsupported-format
error whose message names the extension; dispatch depends on the path only
through the lower-cased extension; both programs use the same routine. -/
theorem loadData_dispatch_spec :
    (∀ p, load_data false p = .fileNotFound p) ∧
    (∀ p, (pathSuffix p).toLower = ".csv" → load_data true p = .csv) ∧
    (∀ p, (pathSuffix p).toLower = ".xlsx" ∨ (pathSuffix p).toLower = ".xls" →
        load_data true p = .excel) ∧
    (∀ p, (pathSuffix p).toLower = ".json" → load_data true p = .json) ∧
    (∀ p, (pathSuffix p).toLower = ".parquet" → load_data true p = .parquet) ∧
    (∀ p, (pathSuffix p).toLower ∉ [".csv", ".xlsx", ".xls", ".json", ".parquet"] →
        load_data true p = .unsupported ((pathSuffix p).toLower) ∧
        ∃ pre, loadErrMessage (load_data true p) =
          some (pre ++ (pathSuffix p).toLower)) ∧
    (∀ p q, (pathSuffix p).toLower = (pathSuffix q).toLower →
        load_data true p = load_data true q) ∧
    vis_load_data = load_data := by
  refine ⟨fun p => rfl, fun p h => ?_, fun p h => ?_, fun p h => ?_, fun p h => ?_,
    fun p h => ?_, fun p q h => ?_, rfl⟩
  · simp [load_data, h]
  · rcases h with h | h <;> simp [load_data, h]
  · simp [load_data, h]
  · simp [load_data, h]
  · simp only [List.mem_cons, List.not_mem_nil, or_false, not_or] at h
    obtain ⟨h1, h2, h3, h4, h5⟩ := h
    constructor
    · simp [load_data, h1, h2, h3, h4, h5]
    · refine ⟨"サポートされていないファイル形式です: ", ?_⟩
      simp [load_data, h1, h2, h3, h4, h5, loadErrMessage]
  · simp [load_data, h]

/-! ## Claim C10 -/

/-- C10: for every nonempty table, when no numeric column exists the
numeric-summary section (printed, and written to the report) holds the
object summary (count, unique, top, freq) of ALL columns and is not empty;
and the section holds only numeric statistics exactly when at least one
numeric column exists. -/
theorem describe_numeric_section_spec (df : Frame) (hne : df ≠ []) :
    ((df.filter (fun c => c.data.isNum) = []) →
        consoleNumericSummarySection df =
          df.map (fun c => (c.name, describeObject c.data.cells)) ∧
        consoleNumericSummarySection df ≠ []) ∧
    ((∀ e ∈ consoleNumericSummarySection df, e.2.isNumericStats = true) ↔
        ∃ c ∈ df, c.data.isNum = true) ∧
    reportNumericSummarySection df = consoleNumericSummarySection df := by
  refine ⟨fun hno => ?_, ?_, rfl⟩
  · unfold consoleNumericSummarySection describe
    rw [hno]
    simp [hne]
  · unfold consoleNumericSummarySection describe
    cases hf : df.filter (fun c => c.data.isNum) with
    | nil =>
        simp only [hf, List.isEmpty_nil, if_pos]
        constructor
        · intro hall
          exfalso
          cases df with
          | nil => exact hne rfl
          | cons c rest =>
              have hmem : (c.name, describeObject c.data.cells) ∈
                  (c :: rest).map (fun c => (c.name, describeObject c.data.cells)) := by
                simp
              have := hall _ hmem
              simp [describeObject, ColSummary.isNumericStats] at this
        · rintro ⟨c, hc, hnum⟩
          exfalso
          have : c ∈ df.filter (fun c => c.data.isNum) := List.mem_filter.mpr ⟨hc, hnum⟩
          rw [hf] at this
          exact List.not_mem_nil c this
    | cons c0 rest0 =>
        simp only [hf, List.isEmpty_cons, if_neg Bool.false_ne_true]
        constructor
        · intro _
          have hc0 : c0 ∈ df.filter (fun c => c.data.isNum) := by rw [hf]; simp
          have := List.mem_filter.mp hc0
          exact ⟨c0, this.1, this.2⟩
        · intro _ e he
          simp only [List.mem_map] at he
          obtain ⟨c, _, rfl⟩ := he
          rfl

/-- Witness for C10: the spec holds at a concrete one-column categorical
table. -/
theorem describe_numeric_section_spec_w :
    ((c10Frame.filter (fun c => c.data.isNum) = []) →
        consoleNumericSummarySection c10Frame =
          c10Frame.map (fun c => (c.name, describeObject c.data.cells)) ∧
        consoleNumericSummarySection c10Frame ≠ []) ∧
    ((∀ e ∈ consoleNumericSummarySection c10Frame, e.2.isNumericStats = true) ↔
        ∃ c ∈ c10Frame, c.data.isNum = true) ∧
    reportNumericSummarySection c10Frame = consoleNumericSummarySection c10Frame :=
  describe_numeric_section_spec c10Frame (by decide)

/-! ## Claim C5 -/

theorem duplicatedFlagsAux_count {α : Type} [DecidableEq α] :
    ∀ (l : List α) (seen : List α),
      (duplicatedFlagsAux seen l).count true + newDistinct seen l = l.length := by
  intro l
  induction l with
  | nil => intro seen; rfl
  | cons r rs ih =>
      intro seen
      have ih2 := ih (r :: seen)
      by_cases h : r ∈ seen <;>
        simp [duplicatedFlagsAux, newDistinct, h, List.count_cons] <;> omega

theorem newDistinct_eq {α : Type} [DecidableEq α] :
    ∀ (l : List α) (seen : List α),
      newDistinct seen l = (l.toFinset \ seen.toFinset).card := by
  intro l
  induction l with
  | nil => intro seen; simp [newDistinct]
  | cons r rs ih =>
      intro seen
      have ih2 := ih (r :: seen)
      rw [List.toFinset_cons] at ih2
      by_cases h : r ∈ seen
      · have hf : r ∈ seen.toFinset := List.mem_toFinset.mpr h
        rw [newDistinct, if_pos h, ih2, Finset.insert_eq_self.mpr hf,
          List.toFinset_cons, Finset.insert_sdiff_of_mem _ hf]
        omega
      · have hf : r ∉ seen.toFinset := fun hc => h (List.mem_toFinset.mp hc)
        rw [newDistinct, if_neg h, ih2, Finset.sdiff_insert,
          List.toFinset_cons, Finset.insert_sdiff_of_not_mem _ hf]
        by_cases hr : r ∈ rs.toFinset \ seen.toFinset
        · rw [Finset.insert_eq_self.mpr hr, Finset.card_erase_of_mem hr]
          have : 0 < (rs.toFinset \ seen.toFinset).card := Finset.card_pos.mpr ⟨r, hr⟩
          omega
        · rw [Finset.erase_eq_of_not_mem hr, Finset.card_insert_of_not_mem hr]
          omega

theorem dupCount_add_distinct {α : Type} [DecidableEq α] (rows : List α) :
    dupCount rows + rows.dedup.length = rows.length := by
  have h1 := duplicatedFlagsAux_count rows ([] : List α)
  have h2 := newDistinct_eq rows ([] : List α)
  rw [List.toFinset_nil, Finset.sdiff_empty, List.card_toFinset] at h2
  unfold dupCount duplicatedFlags
  omega

theorem zip_flag_true_mem {α : Type} [DecidableEq α] :
    ∀ (l : List α) (seen : List α) (p : α × Bool),
      p ∈ l.zip (duplicatedFlagsAux seen l) → p.2 = true →
      p.1 ∈ seen ∨ 2 ≤ l.count p.1 := by
  intro l
  induction l with
  | nil => intro seen p hp _; simp [duplicatedFlagsAux] at hp
  | cons r rs ih =>
      intro seen p hp htrue
      rw [duplicatedFlagsAux, List.zip_cons_cons] at hp
      rcases List.mem_cons.mp hp with heq | htail
      · left
        subst heq
        exact of_decide_eq_true htrue
      · have hmem : p.1 ∈ rs := (List.of_mem_zip htail).1
        rcases ih (r :: seen) p htail htrue with hin | hcnt
        · rcases List.mem_cons.mp hin with h1 | h2
          · right
            have hpos : 0 < rs.count p.1 := List.count_pos_iff.mpr hmem
            rw [h1] at hpos
            rw [h1, List.count_cons_self]
            omega
          · left; exact h2
        · right
          rw [List.count_cons]
          omega

theorem dupExamples_length_le (α : Type) [DecidableEq α] (rows : List α) :
    (dupExamples rows).length ≤ 5 := by
  unfold dupExamples
  rw [List.length_take]
  exact min_le_left _ _

theorem dupExamples_are_dups (α : Type) [DecidableEq α] (rows : List α) :
    ∀ r ∈ dupExamples rows, 2 ≤ rows.count r := by
  intro r hr
  unfold dupExamples at hr
  have hr2 := List.mem_of_mem_take hr
  obtain ⟨p, hpmem, hfst⟩ := List.mem_map.mp hr2
  have hfil := List.mem_filter.mp hpmem
  have hflag : p.2 = true := by simpa using hfil.2
  rcases zip_flag_true_mem rows [] p hfil.1 hflag with h | h
  · simp at h
  · rw [← hfst]; exact h

/-- C5: for every table, the reported duplicate count plus the number of
distinct rows equals the row count — i.e. it counts exactly the rows
identical to an earlier row, first occurrences exempt — and the printed
examples number at most five and each is a genuinely repeated row. -/
theorem checkDuplicates_spec {α : Type} [DecidableEq α] (rows : List α) :
    dupCount rows + rows.dedup.length = rows.length ∧
    (dupExamples rows).length ≤ 5 ∧
    ∀ r ∈ dupExamples rows, 2 ≤ rows.count r :=
  ⟨dupCount_add_distinct rows, dupExamples_length_le α rows, dupExamples_are_dups α rows⟩

/-! ## Claim C7 -/

theorem value_counts_sorted {α : Type} [DecidableEq α] (l : List α) :
    List.Pairwise (fun p q : α × ℕ => q.2 ≤ p.2) (value_counts l) := by
  unfold value_counts
  have htrans : ∀ a b c : α × ℕ, (fun p q : α × ℕ => decide (q.2 ≤ p.2)) a b = true →
      (fun p q : α × ℕ => decide (q.2 ≤ p.2)) b c = true →
      (fun p q : α × ℕ => decide (q.2 ≤ p.2)) a c = true := by
    intro a b c hab hbc
    simp only [decide_eq_true_eq] at *
    omega
  have htotal : ∀ a b : α × ℕ, ((fun p q : α × ℕ => decide (q.2 ≤ p.2)) a b ||
      (fun p q : α × ℕ => decide (q.2 ≤ p.2)) b a) = true := by
    intro a b
    simp only [Bool.or_eq_true, decide_eq_true_eq]
    omega
  have hs := List.sorted_mergeSort htrans htotal
    ((l.dedup).map (fun a => (a, l.count a)))
  exact hs.imp (fun h => by simpa using h)

theorem value_counts_perm {α : Type} [DecidableEq α] (l : List α) :
    (value_counts l).Perm ((l.dedup).map (fun a => (a, l.count a))) :=
  List.mergeSort_perm _ _

theorem value_counts_length {α : Type} [DecidableEq α] (l : List α) :
    (value_counts l).length = l.dedup.length := by
  rw [(value_counts_perm l).length_eq, List.length_map]

theorem countChart_truncated_iff {α : Type} [DecidableEq α] (l : List α) :
    (countChart l).truncated = true ↔ 10 < l.dedup.length := by
  unfold countChart
  split_ifs with h <;> simp_all [value_counts_length]

theorem countChart_shown_of_trunc {α : Type} [DecidableEq α] (l : List α)
    (h : 10 < l.dedup.length) :
    (countChart l).shown = (value_counts l).take 10 ∧ (countChart l).shown.length = 10 := by
  have h' : 10 < (value_counts l).length := by rw [value_counts_length]; exact h
  unfold countChart
  rw [if_pos h']
  refine ⟨rfl, ?_⟩
  rw [List.length_take]
  omega

theorem countChart_top10 {α : Type} [DecidableEq α] (l : List α)
    (h : 10 < l.dedup.length) :
    ∀ s ∈ (countChart l).shown, ∀ q ∈ value_counts l,
      q ∉ (countChart l).shown → q.2 ≤ s.2 := by
  intro s hs q hq hqn
  have hshw := (countChart_shown_of_trunc l h).1
  rw [hshw] at hs hqn
  have hsplit : (value_counts l).take 10 ++ (value_counts l).drop 10 = value_counts l :=
    List.take_append_drop 10 (value_counts l)
  have hpw : List.Pairwise (fun p q : α × ℕ => q.2 ≤ p.2)
      ((value_counts l).take 10 ++ (value_counts l).drop 10) := by
    rw [hsplit]; exact value_counts_sorted l
  have hdrop : q ∈ (value_counts l).drop 10 := by
    rcases List.mem_append.mp (by rw [hsplit]; exact hq) with h1 | h2
    · exact absurd h1 hqn
    · exact h2
  exact (List.pairwise_append.mp hpw).2.2 s hs q hdrop

theorem countChart_shown_of_small {α : Type} [DecidableEq α] (l : List α)
    (h : l.dedup.length ≤ 10) :
    (countChart l).truncated = false ∧ (countChart l).shown = value_counts l := by
  have h' : ¬ 10 < (value_counts l).length := by rw [value_counts_length]; omega
  unfold countChart
  rw [if_neg h']
  exact ⟨rfl, rfl⟩

/-- C7: the count chart shows every distinct value (as `value_counts`,
frequency-descending) when there are at most 10 of them and prints no
notice; with more than 10 it prints the truncation notice and shows
exactly 10 bars, each at least as frequent as every omitted value. -/
theorem plotCount_truncation_spec :
    (∀ (α : Type) [DecidableEq α] (l : List α),
      (value_counts l).Perm ((l.dedup).map (fun a => (a, l.count a))) ∧
      ((countChart l).truncated = true ↔ 10 < l.dedup.length) ∧
      (10 < l.dedup.length →
        (countChart l).shown = (value_counts l).take 10 ∧
        (countChart l).shown.length = 10 ∧
        ∀ s ∈ (countChart l).shown, ∀ q ∈ value_counts l,
          q ∉ (countChart l).shown → q.2 ≤ s.2) ∧
      (l.dedup.length ≤ 10 →
        (countChart l).truncated = false ∧ (countChart l).shown = value_counts l)) ∧
    (∀ (df : Frame) (column : String) (out : Option String) (d : ColData),
      getCol df column = some d →
      (Effect.message (.truncNotice column) ∈ (plot_count df column out).1 ↔
        10 < d.cells.dedup.length)) := by
  constructor
  · intro α _ l
    refine ⟨value_counts_perm l, countChart_truncated_iff l, fun h => ?_, fun h =>
      countChart_shown_of_small l h⟩
    exact ⟨(countChart_shown_of_trunc l h).1, (countChart_shown_of_trunc l h).2,
      countChart_top10 l h⟩
  · intro df column out d hg
    rw [← countChart_truncated_iff]
    simp only [plot_count, hg]
    by_cases htr : (countChart d.cells).truncated = true
    · rw [htr]
      rcases out with _ | p <;> simp [finishEffects]
    · rw [Bool.not_eq_true] at htr
      rw [htr]
      rcases out with _ | p <;> simp [finishEffects]

/-! ## Claim C8 -/

theorem hist_err_no_effects (df : Frame) (c : String) (b : ℕ) (out : Option String) :
    ((plot_histogram df c b out).2).isSome = true → (plot_histogram df c b out).1 = [] := by
  intro h
  unfold plot_histogram at h ⊢
  split_ifs at h ⊢ <;> simp_all

theorem box_err_no_effects (df : Frame) (c : String) (g out : Option String) :
    ((plot_boxplot df c g out).2).isSome = true → (plot_boxplot df c g out).1 = [] := by
  intro h
  rcases g with _ | b <;> simp only [plot_boxplot] at h ⊢ <;>
    split_ifs at h ⊢ <;> simp_all

theorem scatter_err_no_effects (df : Frame) (x y : String) (hue out : Option String) :
    ((plot_scatter df x y hue out).2).isSome = true →
    (plot_scatter df x y hue out).1 = [] := by
  intro h
  rcases hue with _ | hcol <;> simp only [plot_scatter] at h ⊢ <;>
    split_ifs at h ⊢ <;> simp_all

theorem heatmap_err_no_effects (df : Frame) (out : Option String) :
    ((plot_correlation_heatmap df out).2).isSome = true →
    (plot_correlation_heatmap df out).1 = [] := by
  intro h
  unfold plot_correlation_heatmap at h ⊢
  split_ifs at h ⊢ <;> simp_all

theorem pairplot_err_no_effects (df : Frame) (cols : Option (List String))
    (hue out : Option String) :
    ((plot_pairplot df cols hue out).2).isSome = true →
    (plot_pairplot df cols hue out).1 = [] := by
  intro h
  rcases cols with _ | cs
  · rcases hue with _ | hcol <;> simp only [plot_pairplot] at h ⊢ <;>
      split_ifs at h ⊢ <;> simp_all
  · rcases hbad : firstBadPairCol df cs with _ | e <;>
      rcases hue with _ | hcol <;>
      simp only [plot_pairplot, hbad] at h ⊢ <;>
      (try split_ifs at h ⊢) <;> simp_all

theorem count_err_no_effects (df : Frame) (c : String) (out : Option String) :
    ((plot_count df c out).2).isSome = true → (plot_count df c out).1 = [] := by
  intro h
  unfold plot_count at h ⊢
  rcases hg : getCol df c with _ | d <;> simp_all

theorem ts_err_no_effects (P : DTParse) (df : Frame) (dc vc : String)
    (freq : Option (ℤ → ℤ)) (out : Option String) :
    ((plot_time_series P df dc vc freq out).err).isSome = true →
    (plot_time_series P df dc vc freq out).effects = [] := by
  intro h
  unfold plot_time_series at h ⊢
  split_ifs at h ⊢ <;>
    rcases hpd : parseDates P ((getCol df dc).getD (.num [])) with _ | dates <;>
    simp_all

/-- C8: a histogram request on a missing column fails with missing-column,
on a present non-numeric column with wrong-column-type, both with an empty
effect trace; across every chart kind, a raised validation error means no
drawing effect was begun, so no partial output can be persisted. -/
theorem plotValidation_spec :
    (∀ df column bins out, hasCol df column = false →
        plot_histogram df column bins out = ([], some (.missingCol column))) ∧
    (∀ df column bins out, hasCol df column = true → isNumericCol df column = false →
        plot_histogram df column bins out = ([], some (.notNumeric column))) ∧
    (∀ P df cmd out, ((runChart P df cmd out).2).isSome = true →
        (runChart P df cmd out).1 = []) := by
  refine ⟨fun df column bins out h => ?_, fun df column bins out h1 h2 => ?_,
    fun P df cmd out h => ?_⟩
  · simp [plot_histogram, h]
  · simp [plot_histogram, h1, h2]
  · cases cmd with
    | hist c b => exact hist_err_no_effects df c b out h
    | box c g => exact box_err_no_effects df c g out h
    | scatter x y hu => exact scatter_err_no_effects df x y hu out h
    | corr => exact heatmap_err_no_effects df out h
    | pair cs hu => exact pairplot_err_no_effects df cs hu out h
    | count c => exact count_err_no_effects df c out h
    | time dc vcol f => exact ts_err_no_effects P df dc vcol f out h

/-! ## Claim C9 -/

theorem colNames_setCol (df : Frame) (n : String) (d : ColData) :
    colNames (setCol df n d) = colNames df := by
  induction df with
  | nil => rfl
  | cons col rest ih =>
      simp only [colNames, setCol, List.map_cons] at ih ⊢
      by_cases h : col.name = n <;> simp [h, ih]

theorem getCol_setCol_ne (df : Frame) (n : String) (d : ColData) (c : String)
    (hne : c ≠ n) : getCol (setCol df n d) c = getCol df c := by
  induction df with
  | nil => rfl
  | cons col rest ih =>
      simp only [setCol, List.map_cons] at ih ⊢
      by_cases h : col.name = n
      · have h3 : ¬ col.name = c := fun e => hne (by rw [← e, h])
        rw [if_pos h]
        show (if col.name = c then some d else getCol (setCol rest n d) c) = _
        rw [if_neg h3, getCol, if_neg h3]
        exact ih
      · rw [if_neg h]
        by_cases h2 : col.name = c
        · rw [getCol, if_pos h2, getCol, if_pos h2]
        · rw [getCol, if_neg h2, getCol, if_neg h2]
          exact ih

theorem getCol_setCol_self (df : Frame) (n : String) (d : ColData)
    (h : hasCol df n = true) : getCol (setCol df n d) n = some d := by
  induction df with
  | nil => simp [hasCol, getCol] at h
  | cons col rest ih =>
      simp only [setCol, List.map_cons] at ih ⊢
      by_cases h2 : col.name = n
      · rw [if_pos h2]
        show (if col.name = n then some d else getCol (setCol rest n d) n) = some d
        rw [if_pos h2]
      · have htail : hasCol rest n = true := by
          simp only [hasCol, getCol, if_neg h2] at h
          exact h
        rw [if_neg h2, getCol, if_neg h2]
        exact ih htail

/-- C9 (counterexample): at a concrete table with out-of-order dates, the
caller-visible frame after `plot_time_series` has the date column converted
to date-time in the ORIGINAL row order — it differs from the parsed-and-
sorted frame the claim describes, because `df.sort_values` only rebinds the
function-local name. -/
theorem tsMutation_counterexample :
    (plot_time_series c9Parse c9Frame "date" "value" none none).frame = c9ParsedFrame ∧
    (plot_time_series c9Parse c9Frame "date" "value" none none).frame ≠ c9SortedFrame := by
  constructor <;> decide

/-- C9 (amended): every operation of both programs other than the
time-series plot leaves the caller's table unchanged; the time-series plot
either leaves it unchanged (validation or parse failure) or changes it
exactly by replacing the date column's data with its parsed date-time
values in the original row order — the ascending sort is applied to a local
copy only, and every other column, and the column names and order, are
untouched. -/
theorem tableAfter_spec :
    (∀ P op df, Operation.isTimeSeries op = false → tableAfter P op df = df) ∧
    (∀ P df dc vc freq out,
      (plot_time_series P df dc vc freq out).frame = df ∨
      ∃ d0 dates, getCol df dc = some d0 ∧ parseDates P d0 = some dates ∧
        (plot_time_series P df dc vc freq out).frame = setCol df dc (.dt dates)) ∧
    (∀ df n d, colNames (setCol df n d) = colNames df ∧
      (∀ c, c ≠ n → getCol (setCol df n d) c = getCol df c) ∧
      (hasCol df n = true → getCol (setCol df n d) n = some d)) := by
  refine ⟨fun P op df h => ?_, fun P df dc vc freq out => ?_, fun df n d =>
    ⟨colNames_setCol df n d, fun c hc => getCol_setCol_ne df n d c hc,
      fun h => getCol_setCol_self df n d h⟩⟩
  · cases op with
    | chart cmd out =>
        cases cmd with
        | time dc vcol f => simp [Operation.isTimeSeries] at h
        | hist c b => rfl
        | box c g => rfl
        | scatter x y hu => rfl
        | corr => rfl
        | pair cs hu => rfl
        | count c => rfl
    | headRows nn => rfl
    | basicStats => rfl
    | checkDup => rfl
    | analyzeCorr t => rfl
    | saveReport p => rfl
  · unfold plot_time_series
    split_ifs with ha hb hcn
    · exact Or.inl rfl
    · exact Or.inl rfl
    · exact Or.inl rfl
    · rcases hpd : parseDates P ((getCol df dc).getD (.num [])) with _ | dates
      · exact Or.inl rfl
      · right
        have hdc : hasCol df dc = true := by
          rcases hh : hasCol df dc with _ | _
          · rw [hh] at ha; simp at ha
          · rfl
        obtain ⟨d0, hg⟩ := getCol_of_hasCol hdc
        refine ⟨d0, dates, hg, ?_, rfl⟩
        rw [hg] at hpd
        simpa using hpd

/-! ## Claim C2 -/

theorem sqDev_nonneg (xs : List ℚ) : 0 ≤ sqDev xs := by
  unfold sqDev crossDev
  rw [List.zipWith_same]
  apply List.sum_nonneg
  intro x hx
  obtain ⟨a, _, rfl⟩ := List.mem_map.mp hx
  exact mul_self_nonneg a

theorem fmt4_close (r : ℝ) : |(fmt4 r : ℝ) - r * 10000| ≤ 1 / 2 := by
  unfold fmt4
  by_cases h : Int.fract (r * 10000) = 1 / 2
  · rw [if_pos h]
    have hyv : r * 10000 = (⌊r * 10000⌋ : ℝ) + 1 / 2 := by
      have hfl := Int.floor_add_fract (r * 10000)
      rw [h] at hfl
      linarith
    rcases Int.even_or_odd ⌊r * 10000⌋ with ⟨m, hm⟩ | ⟨m, hm⟩
    · have hy2 : r * 10000 / 2 = (m : ℝ) + 1 / 4 := by
        rw [hyv, hm]; push_cast; ring
      have hr : round (r * 10000 / 2) = m := by
        rw [hy2, round_eq]
        have h34 : (m : ℝ) + 1 / 4 + 1 / 2 = (m : ℝ) + 3 / 4 := by ring
        rw [h34, Int.floor_int_add]
        have h0 : ⌊(3 / 4 : ℝ)⌋ = 0 := by
          rw [Int.floor_eq_iff]; norm_num
        rw [h0]
        omega
      rw [hr, hyv, hm]
      push_cast
      rw [abs_le]
      constructor <;> linarith
    · have hy2 : r * 10000 / 2 = (m : ℝ) + 3 / 4 := by
        rw [hyv, hm]; push_cast; ring
      have hr : round (r * 10000 / 2) = m + 1 := by
        rw [hy2, round_eq]
        have h54 : (m : ℝ) + 3 / 4 + 1 / 2 = (m : ℝ) + 5 / 4 := by ring
        rw [h54, Int.floor_int_add]
        have h1 : ⌊(5 / 4 : ℝ)⌋ = 1 := by
          rw [Int.floor_eq_iff]; norm_num
        rw [h1]
      rw [hr, hyv, hm]
      push_cast
      rw [abs_le]
      constructor <;> linarith
  · rw [if_neg h, abs_sub_comm]
    exact abs_sub_round (r * 10000)

theorem pearsonPass_iff (xs ys : List ℚ) (t : ℚ) (ht : 0 < t) :
    pearsonPass xs ys t = true ↔ (t : ℝ) ≤ |pearson xs ys| := by
  have hBq := sqDev_nonneg xs
  have hCq := sqDev_nonneg ys
  unfold pearsonPass pearson
  rw [decide_eq_true_eq]
  have htr : (0 : ℝ) < (t : ℝ) := by exact_mod_cast ht
  by_cases hB0 : sqDev xs = 0
  · rw [hB0]
    simp only [Rat.cast_zero, Real.sqrt_zero, zero_mul, div_zero, abs_zero]
    constructor
    · rintro ⟨h0, _, _⟩; exact absurd h0 (lt_irrefl 0)
    · intro hle; exact absurd (lt_of_lt_of_le htr hle) (lt_irrefl 0)
  · by_cases hC0 : sqDev ys = 0
    · rw [hC0]
      simp only [Rat.cast_zero, Real.sqrt_zero, mul_zero, div_zero, abs_zero]
      constructor
      · rintro ⟨_, h0, _⟩; exact absurd h0 (lt_irrefl 0)
      · intro hle; exact absurd (lt_of_lt_of_le htr hle) (lt_irrefl 0)
    · have hBpos : 0 < sqDev xs := lt_of_le_of_ne hBq (Ne.symm hB0)
      have hCpos : 0 < sqDev ys := lt_of_le_of_ne hCq (Ne.symm hC0)
      have hBr : (0 : ℝ) < (sqDev xs : ℝ) := by exact_mod_cast hBpos
      have hCr : (0 : ℝ) < (sqDev ys : ℝ) := by exact_mod_cast hCpos
      have hs : 0 < Real.sqrt (sqDev xs : ℚ) * Real.sqrt (sqDev ys : ℚ) :=
        mul_pos (Real.sqrt_pos.mpr hBr) (Real.sqrt_pos.mpr hCr)
      rw [abs_div, abs_of_pos hs, le_div_iff₀ hs]
      have hts : 0 ≤ (t : ℝ) * (Real.sqrt (sqDev xs : ℚ) * Real.sqrt (sqDev ys : ℚ)) :=
        le_of_lt (mul_pos htr hs)
      rw [← pow_le_pow_iff_left₀ hts (abs_nonneg _) two_ne_zero, mul_pow, mul_pow,
        Real.sq_sqrt hBr.le, Real.sq_sqrt hCr.le, sq_abs]
      constructor
      · rintro ⟨_, _, hle⟩; exact_mod_cast hle
      · intro hle; exact ⟨hBpos, hCpos, by exact_mod_cast hle⟩

theorem mem_lowerTriangle {n : ℕ} {ij : ℕ × ℕ} :
    ij ∈ lowerTriangle n ↔ ij.2 < ij.1 ∧ ij.1 < n := by
  unfold lowerTriangle
  rw [List.mem_flatMap]
  constructor
  · rintro ⟨i, hi, hm⟩
    obtain ⟨j, hj, rfl⟩ := List.mem_map.mp hm
    exact ⟨List.mem_range.mp hj, List.mem_range.mp hi⟩
  · rintro ⟨h1, h2⟩
    exact ⟨ij.1, List.mem_range.mpr h2,
      List.mem_map.mpr ⟨ij.2, List.mem_range.mpr h1, by simp⟩⟩

theorem lowerTriangle_pairwise_ne (n : ℕ) :
    List.Pairwise (fun p q : ℕ × ℕ => p ≠ q) (lowerTriangle n) := by
  unfold lowerTriangle
  rw [List.pairwise_flatMap]
  constructor
  · intro i _
    rw [List.pairwise_map]
    exact (List.pairwise_lt_range i).imp
      (fun hlt heq => Nat.ne_of_lt hlt (congrArg Prod.snd heq))
  · apply (List.pairwise_lt_range n).imp
    intro i1 i2 hlt x hx y hy heq
    obtain ⟨j1, _, rfl⟩ := List.mem_map.mp hx
    obtain ⟨j2, _, rfl⟩ := List.mem_map.mp hy
    exact Nat.ne_of_lt hlt (congrArg Prod.fst heq)

theorem numericNames_inj (nc : List (String × List ℚ))
    (hnd : (nc.map Prod.fst).Nodup) (i j : ℕ) (hi : i < nc.length)
    (hj : j < nc.length)
    (he : (nc.getD i ("", [])).1 = (nc.getD j ("", [])).1) : i = j := by
  rw [List.getD_eq_getElem _ _ hi, List.getD_eq_getElem _ _ hj] at he
  have hmi : i < (nc.map Prod.fst).length := by rw [List.length_map]; exact hi
  have hmj : j < (nc.map Prod.fst).length := by rw [List.length_map]; exact hj
  have h3 : (nc.map Prod.fst)[i] = (nc.map Prod.fst)[j] := by
    rw [List.getElem_map, List.getElem_map]; exact he
  exact hnd.getElem_inj_iff.mp h3

theorem mem_corrPairs {nc : List (String × List ℚ)} {t : ℚ} {a b : String} :
    (a, b) ∈ corrPairs nc t ↔
      ∃ i j : ℕ, j < i ∧ i < nc.length ∧
        a = (nc.getD i ("", [])).1 ∧ b = (nc.getD j ("", [])).1 ∧
        pearsonPass (nc.getD i ("", [])).2 (nc.getD j ("", [])).2 t = true := by
  unfold corrPairs
  rw [List.mem_filterMap]
  constructor
  · rintro ⟨ij, hmem, hf⟩
    have hb := mem_lowerTriangle.mp hmem
    by_cases hp : pearsonPass (nc.getD ij.1 ("", [])).2 (nc.getD ij.2 ("", [])).2 t = true
    · rw [if_pos hp] at hf
      have h1 : (nc.getD ij.1 ("", [])).1 = a := congrArg Prod.fst (Option.some.inj hf)
      have h2 : (nc.getD ij.2 ("", [])).1 = b := congrArg Prod.snd (Option.some.inj hf)
      exact ⟨ij.1, ij.2, hb.1, hb.2, h1.symm, h2.symm, hp⟩
    · rw [if_neg hp] at hf
      exact absurd hf (Option.noConfusion)
  · rintro ⟨i, j, hj, hi, ha, hb, hp⟩
    refine ⟨(i, j), mem_lowerTriangle.mpr ⟨hj, hi⟩, ?_⟩
    rw [if_pos hp, ha, hb]

/-- C2: the console correlation analysis skips under two numeric columns;
otherwise it prints exactly the strict-lower-triangle pairs of distinct
numeric columns whose Pearson coefficient has absolute value at least the
threshold, the displayed value being the coefficient rounded at the fourth
decimal, with no self-pair and no unordered pair repeated. -/
theorem analyzeCorrelations_spec (df : Frame) (t : ℚ) (ht : 0 < t)
    (hnd : ((numericCols df).map Prod.fst).Nodup) :
    corrSpecStatement df t := by
  unfold corrSpecStatement
  refine ⟨fun hlt => ?_, fun hge => ⟨?_, ?_, ?_, ?_⟩⟩
  · unfold analyze_correlations
    rw [if_pos hlt]
  · unfold analyze_correlations
    rw [if_neg (Nat.not_lt.mpr hge)]
  · intro a b
    rw [mem_corrPairs]
    constructor
    · rintro ⟨i, j, hj, hi, ha, hb, hp⟩
      exact ⟨i, j, hj, hi, ha, hb, (pearsonPass_iff _ _ t ht).mp hp, fmt4_close _⟩
    · rintro ⟨i, j, hj, hi, ha, hb, hpe, _⟩
      exact ⟨i, j, hj, hi, ha, hb, (pearsonPass_iff _ _ t ht).mpr hpe⟩
  · rintro ⟨a, b⟩ hp
    obtain ⟨i, j, hj, hi, ha, hb, _⟩ := mem_corrPairs.mp hp
    intro he
    have := numericNames_inj (numericCols df) hnd i j hi (lt_trans hj hi)
      (by rw [← ha, ← hb]; exact he)
    omega
  · unfold noDupUnordered corrPairs
    rw [List.pairwise_filterMap]
    apply List.Pairwise.imp_of_mem ?_ (lowerTriangle_pairwise_ne (numericCols df).length)
    intro ij kl hmi hmk hne x hx y hy
    have hbi := mem_lowerTriangle.mp hmi
    have hbk := mem_lowerTriangle.mp hmk
    by_cases hpi : pearsonPass ((numericCols df).getD ij.1 ("", [])).2
        ((numericCols df).getD ij.2 ("", [])).2 t = true
    · rw [if_pos hpi, Option.mem_def] at hx
      by_cases hpk : pearsonPass ((numericCols df).getD kl.1 ("", [])).2
          ((numericCols df).getD kl.2 ("", [])).2 t = true
      · rw [if_pos hpk, Option.mem_def] at hy
        obtain rfl := Option.some.inj hx.symm
        obtain rfl := Option.some.inj hy.symm
        constructor
        · intro heq
          have hf := congrArg Prod.fst heq
          have hs := congrArg Prod.snd heq
          have e1 := numericNames_inj (numericCols df) hnd ij.1 kl.1 hbi.2 hbk.2 hf
          have e2 := numericNames_inj (numericCols df) hnd ij.2 kl.2
            (lt_trans hbi.1 hbi.2) (lt_trans hbk.1 hbk.2) hs
          exact hne (Prod.ext e1 e2)
        · intro heq
          have hf := congrArg Prod.fst heq
          have hs := congrArg Prod.snd heq
          have e1 := numericNames_inj (numericCols df) hnd ij.1 kl.2 hbi.2
            (lt_trans hbk.1 hbk.2) hf
          have e2 := numericNames_inj (numericCols df) hnd ij.2 kl.1
            (lt_trans hbi.1 hbi.2) hbk.2 hs
          omega
      · rw [if_neg hpk] at hy
        exact absurd hy (by simp)
    · rw [if_neg hpi] at hx
      exact absurd hx (by simp)

/-- Witness for C2: the spec holds at a concrete three-column table with
the default threshold. -/
theorem analyzeCorrelations_spec_w : corrSpecStatement c2Frame (7 / 10) :=
  analyzeCorrelations_spec c2Frame (7 / 10) (by norm_num) (by decide)

/-! ## Claim C6 -/

theorem int_min?_spec {l : List ℤ} {a : ℤ} (h : l.min? = some a) :
    a ∈ l ∧ ∀ b ∈ l, a ≤ b := by
  haveI : Std.Antisymm (fun x1 x2 : ℤ => x1 ≤ x2) := ⟨fun h1 h2 => le_antisymm h1 h2⟩
  exact (List.min?_eq_some_iff (fun a => le_refl a) (fun a b => min_choice a b)
    (fun _ _ _ => le_min_iff)).mp h

theorem int_max?_spec {l : List ℤ} {a : ℤ} (h : l.max? = some a) :
    a ∈ l ∧ ∀ b ∈ l, b ≤ a := by
  haveI : Std.Antisymm (fun x1 x2 : ℤ => x1 ≤ x2) := ⟨fun h1 h2 => le_antisymm h1 h2⟩
  exact (List.max?_eq_some_iff (fun a => le_refl a) (fun a b => max_choice a b)
    (fun _ _ _ => max_le_iff)).mp h

theorem meanOpt_perm {l l' : List ℚ} (h : l.Perm l') : meanOpt l = meanOpt l' := by
  by_cases he : l = []
  · subst he
    rw [h.symm.eq_nil]
  · have he' : l' ≠ [] := fun e => he ((e ▸ h).eq_nil)
    unfold meanOpt
    rw [if_neg (fun hc => he (List.isEmpty_iff.mp hc)),
      if_neg (fun hc => he' (List.isEmpty_iff.mp hc)), h.sum_eq, h.length_eq]

theorem meanOpt_ne_none {l : List ℚ} (h : l ≠ []) : meanOpt l ≠ none := by
  unfold meanOpt
  rw [if_neg (fun hc => h (List.isEmpty_iff.mp hc))]
  simp

theorem sortByDate_perm (rows : List (ℤ × ℚ)) : (sortByDate rows).Perm rows :=
  List.mergeSort_perm rows _

theorem sortByDate_sorted (rows : List (ℤ × ℚ)) :
    List.Pairwise (fun p q : ℤ × ℚ => p.1 ≤ q.1) (sortByDate rows) := by
  unfold sortByDate
  have htrans : ∀ a b c : ℤ × ℚ, (fun p q : ℤ × ℚ => decide (p.1 ≤ q.1)) a b = true →
      (fun p q : ℤ × ℚ => decide (p.1 ≤ q.1)) b c = true →
      (fun p q : ℤ × ℚ => decide (p.1 ≤ q.1)) a c = true := by
    intro a b c hab hbc
    simp only [decide_eq_true_eq] at *
    omega
  have htotal : ∀ a b : ℤ × ℚ, ((fun p q : ℤ × ℚ => decide (p.1 ≤ q.1)) a b ||
      (fun p q : ℤ × ℚ => decide (p.1 ≤ q.1)) b a) = true := by
    intro a b
    simp only [Bool.or_eq_true, decide_eq_true_eq]
    omega
  exact (List.sorted_mergeSort htrans htotal rows).imp (fun h => by simpa using h)

theorem resample_keys (bucket : ℤ → ℤ) (rows : List (ℤ × ℚ)) :
    List.Pairwise (fun a b : ℤ => a < b) ((resample bucket rows).map Prod.fst) := by
  unfold resample
  cases hmin : (rows.map (fun r => bucket r.1)).min? with
  | none => simp
  | some a =>
      cases hmax : (rows.map (fun r => bucket r.1)).max? with
      | none => simp
      | some b =>
          rw [List.map_map, List.pairwise_map]
          refine (List.pairwise_lt_range _).imp ?_
          intro k1 k2 hlt
          show a + (k1 : ℤ) < a + (k2 : ℤ)
          omega

theorem resample_mem (bucket : ℤ → ℤ) (rows : List (ℤ × ℚ)) {pt : ℤ × Option ℚ}
    (h : pt ∈ resample bucket rows) :
    pt.2 = meanOpt ((rows.filter (fun r => bucket r.1 == pt.1)).map Prod.snd) := by
  unfold resample at h
  split at h
  · obtain ⟨k, hk, rfl⟩ := List.mem_map.mp h
    rfl
  · exact absurd h (List.not_mem_nil _)

theorem resample_occupied (bucket : ℤ → ℤ) (rows : List (ℤ × ℚ)) {q : ℤ × ℚ}
    (hq : q ∈ rows) :
    ∃ pt ∈ resample bucket rows, pt.1 = bucket q.1 ∧ pt.2 ≠ none := by
  have hbm : bucket q.1 ∈ rows.map (fun r => bucket r.1) := List.mem_map_of_mem _ hq
  unfold resample
  cases hmin : (rows.map (fun r => bucket r.1)).min? with
  | none =>
      rw [List.min?_eq_none_iff] at hmin
      rw [hmin] at hbm
      exact absurd hbm (List.not_mem_nil _)
  | some a =>
      cases hmax : (rows.map (fun r => bucket r.1)).max? with
      | none =>
          rw [List.max?_eq_none_iff] at hmax
          rw [hmax] at hbm
          exact absurd hbm (List.not_mem_nil _)
      | some b =>
          have ha : a ≤ bucket q.1 := (int_min?_spec hmin).2 _ hbm
          have hb : bucket q.1 ≤ b := (int_max?_spec hmax).2 _ hbm
          have hk : (bucket q.1 - a).toNat < (b - a + 1).toNat := by omega
          have heq : a + ((bucket q.1 - a).toNat : ℤ) = bucket q.1 := by omega
          refine ⟨(a + ((bucket q.1 - a).toNat : ℤ),
            meanOpt (((rows.filter
              (fun r => bucket r.1 == a + ((bucket q.1 - a).toNat : ℤ))).map Prod.snd))),
            ?_, heq, ?_⟩
          · exact List.mem_map.mpr ⟨(bucket q.1 - a).toNat, List.mem_range.mpr hk, rfl⟩
          · apply meanOpt_ne_none
            intro hc
            have hqf : q ∈ rows.filter
                (fun r => bucket r.1 == a + ((bucket q.1 - a).toNat : ℤ)) := by
              rw [List.mem_filter]
              refine ⟨hq, ?_⟩
              rw [heq]
              exact beq_self_eq_true _
            have hm2 : q.2 ∈ (rows.filter
                (fun r => bucket r.1 == a + ((bucket q.1 - a).toNat : ℤ))).map Prod.snd :=
              List.mem_map_of_mem _ hqf
            rw [hc] at hm2
            exact absurd hm2 (List.not_mem_nil _)

theorem plot_time_series_checksPass (P : DTParse) (df : Frame)
    (dateCol valueCol : String) (freq : Option (ℤ → ℤ)) (out : Option String)
    (ds : List String) (vs : List ℚ)
    (hd : getCol df dateCol = some (.str ds))
    (hv : getCol df valueCol = some (.num vs)) :
    plot_time_series P df dateCol valueCol freq out =
      match traverseOpt P.ofStr ds with
      | none => ⟨[], some (.dateParse dateCol), [], df⟩
      | some dates =>
          ⟨[.figure, .draw] ++ finishEffects out, none,
            (match freq with
              | some bucket => resample bucket (sortByDate (dates.zip vs))
              | none => (sortByDate (dates.zip vs)).map (fun r => (r.1, some r.2))),
            setCol df dateCol (.dt dates)⟩ := by
  have hdc : hasCol df dateCol = true := by unfold hasCol; rw [hd]; rfl
  have hvc : hasCol df valueCol = true := by unfold hasCol; rw [hv]; rfl
  have hvn : isNumericCol df valueCol = true := by unfold isNumericCol; rw [hv]
  unfold plot_time_series
  simp only [hdc, hvc, hvn, hd, hv, Bool.not_true, Bool.false_eq_true, if_false,
    Option.getD_some, parseDates, ColData.numVals]

/-- C6: under an existing raw date column and an existing numeric value
column, a date-parse failure is a terminal error for the invocation; on
success the plotted rows are sorted ascending by date, and with a frequency
code the plot holds one mean-aggregated point per time bucket, keys
strictly ascending, every occupied bucket represented. -/
theorem plotTimeSeries_spec (P : DTParse) (df : Frame) (dateCol valueCol : String)
    (ds : List String) (vs : List ℚ)
    (hd : getCol df dateCol = some (.str ds))
    (hv : getCol df valueCol = some (.num vs)) :
    tsSpecStatement P df dateCol valueCol ds vs := by
  unfold tsSpecStatement
  constructor
  · intro freq out hfail
    rw [plot_time_series_checksPass P df dateCol valueCol freq out ds vs hd hv, hfail]
    exact ⟨rfl, rfl, rfl⟩
  · intro dates out hok
    constructor
    · rw [plot_time_series_checksPass P df dateCol valueCol none out ds vs hd hv, hok]
      refine ⟨rfl, rfl, ?_, sortByDate_perm _⟩
      exact List.pairwise_map.mpr (sortByDate_sorted _)
    · intro bucket
      rw [plot_time_series_checksPass P df dateCol valueCol (some bucket) out ds vs hd hv,
        hok]
      refine ⟨rfl, rfl, resample_keys bucket _, ?_, ?_⟩
      · intro pt hpt
        rw [resample_mem bucket (sortByDate (dates.zip vs)) hpt]
        exact meanOpt_perm (((sortByDate_perm (dates.zip vs)).filter _).map _)
      · intro q hq
        exact resample_occupied bucket _ (((sortByDate_perm (dates.zip vs)).mem_iff).mpr hq)

/-- Witness for C6: the spec holds at a concrete two-column table whose
three daily rows span two weeks. -/
theorem plotTimeSeries_spec_w :
    tsSpecStatement tsToyParse tsToyFrame "date" "value" ["d0", "d1", "d7"] [1, 2, 3] :=
  plotTimeSeries_spec tsToyParse tsToyFrame "date" "value" ["d0", "d1", "d7"] [1, 2, 3]
    (by decide) (by decide)

end DataLab
